import Mathlib

/-!
Verification of the infrastructure-climate ETL pipeline
(`src/etl/run_etl_pipeline.py`, class `InfrastructureETL`).

The pipeline is a sequence of DuckDB SQL statements.  We embed the relations as
lists of records and each SQL statement as a pure function on them:

* `clean_infrastructure` — the `CREATE TABLE clean_infrastructure` query:
  filter `year >= 2010`, derived columns `avg_resilience`,
  `score_change = infrastructure_score − LAG(infrastructure_score) OVER
  (PARTITION BY country ORDER BY year)`,
  `yearly_rank = RANK() OVER (PARTITION BY year ORDER BY infrastructure_score
  DESC)`, final `ORDER BY country, year`.
* `country_summary_of` — the `GROUP BY country` aggregation over the clean table.
* `yearly_trends_of` — the `GROUP BY year` aggregation over the clean table.
* `top_performers_of` — the view joining the summary with the clean table at
  the maximum year, ordered by score descending, `LIMIT 10`.
* `run_quality_checks` — the null and duplicate checks and the report.
* `run_pipeline` — the orchestrator (`try`/`except`/`finally` around the five
  stages), modelled as a step chain on an explicit engine state.

Floats are idealised as `ℚ`.  `infrastructure_score` is nullable (`Option ℚ`):
its null values are what the `null_values` quality check counts; SQL aggregates
(`AVG`, `MIN`, `MAX`, `STDDEV`) skip nulls and arithmetic on null propagates
null, which the `Option`-valued helpers reproduce.  The four resilience columns
are modelled non-nullable: no query or claim inspects their null behaviour.
`STDDEV` (DuckDB's sample standard deviation) is modelled by its square, the
sample variance with `N − 1` denominator, to stay inside `ℚ`; its nullity and
denominator are preserved exactly.  `ORDER BY` is modelled with
`List.insertionSort` (SQL prescribes the ordering relation, not a stable
algorithm).
-/

namespace ETL

/-- A row of `raw_infrastructure`, read from
`infrastructure_resilience_scores.csv`. -/
structure RawRecord where
  country : String
  year : Int
  infrastructure_score : Option ℚ
  transport_resilience : ℚ
  energy_resilience : ℚ
  water_resilience : ℚ
  digital_resilience : ℚ
deriving DecidableEq, Repr

/-- A row of `clean_infrastructure`. -/
structure CleanRecord where
  country : String
  year : Int
  infrastructure_score : Option ℚ
  transport_resilience : ℚ
  energy_resilience : ℚ
  water_resilience : ℚ
  digital_resilience : ℚ
  avg_resilience : ℚ
  score_change : Option ℚ
  yearly_rank : Nat
deriving DecidableEq, Repr

/-- The `(country, year)` key of a raw row. -/
def keyOf (r : RawRecord) : String × Int := (r.country, r.year)

/-- The `(country, year)` key of a clean row (used by the duplicates check). -/
def cleanKey (r : CleanRecord) : String × Int := (r.country, r.year)

/-- The `WHERE year >= 2010` filter of the clean-table query. -/
def filteredRaw (raw : List RawRecord) : List RawRecord :=
  raw.filter (fun r => decide (2010 ≤ r.year))

/-- The year-`y` rows of the filtered input (the year-`y` group of the
`GROUP BY year` aggregation, seen at the raw level). -/
def rawYear (raw : List RawRecord) (y : Int) : List RawRecord :=
  (filteredRaw raw).filter (fun u => decide (u.year = y))

/-- The distinct countries of a raw relation, in first-appearance order
(the partition keys of `PARTITION BY country`). -/
def countriesOf (t : List RawRecord) : List String :=
  (t.map (·.country)).dedup

/-- The rows of one `PARTITION BY country` partition. -/
def partitionOf (t : List RawRecord) (c : String) : List RawRecord :=
  t.filter (fun r => decide (r.country = c))

/-- The intra-partition `ORDER BY year` of the `LAG` window. -/
def yearLe (a b : RawRecord) : Prop := a.year ≤ b.year

instance : DecidableRel yearLe := fun a b => inferInstanceAs (Decidable (a.year ≤ b.year))

instance : IsTotal RawRecord yearLe := ⟨fun a b => Int.le_total a.year b.year⟩

instance : IsTrans RawRecord yearLe := ⟨fun _ _ _ h h' => le_trans h h'⟩

/-- Sort a partition by year (the window frame order of the `LAG`). -/
def sortByYear (l : List RawRecord) : List RawRecord :=
  l.insertionSort yearLe

/-- `LAG(..., 1) OVER (...)`: pair every row of the ordered partition with the
row immediately preceding it (`none` for the first row), carrying the previous
row along the traversal. -/
def withLag : Option RawRecord → List RawRecord → List (RawRecord × Option RawRecord)
  | _, [] => []
  | p, a :: t => (a, p) :: withLag (some a) t

/-- SQL subtraction on nullable values: null as soon as either side is null. -/
def sub? : Option ℚ → Option ℚ → Option ℚ
  | some a, some b => some (a - b)
  | _, _ => none

/-- Strict precedence of scores under `ORDER BY infrastructure_score DESC`
(higher scores first, nulls last — DuckDB's default null order). -/
def descPrecedes : Option ℚ → Option ℚ → Bool
  | some a, some b => decide (b < a)
  | some _, none => true
  | none, _ => false

/-- `RANK() OVER (PARTITION BY year ORDER BY infrastructure_score DESC)`:
one plus the number of rows of the same year that strictly precede `r`
(ties are peers and share a rank — standard competition ranking). -/
def rankOf (t : List RawRecord) (r : RawRecord) : Nat :=
  1 + t.countP (fun s =>
    decide (s.year = r.year) && descPrecedes s.infrastructure_score r.infrastructure_score)

/-- Build one `clean_infrastructure` row from a raw row, its `LAG` predecessor
and the whole filtered relation (for the rank window). -/
def mkClean (t : List RawRecord) (r : RawRecord) (prev : Option RawRecord) : CleanRecord where
  country := r.country
  year := r.year
  infrastructure_score := r.infrastructure_score
  transport_resilience := r.transport_resilience
  energy_resilience := r.energy_resilience
  water_resilience := r.water_resilience
  digital_resilience := r.digital_resilience
  avg_resilience :=
    (r.transport_resilience + r.energy_resilience + r.water_resilience
      + r.digital_resilience) / 4
  score_change :=
    match prev with
    | none => none
    | some s => sub? r.infrastructure_score s.infrastructure_score
  yearly_rank := rankOf t r

/-- The clean rows contributed by one country partition. -/
def cleanByCountry (t : List RawRecord) (c : String) : List CleanRecord :=
  (withLag none (sortByYear (partitionOf t c))).map (fun p => mkClean t p.1 p.2)

/-- Lexicographic order on `VARCHAR` values, as character sequences. -/
def strLt (a b : String) : Prop :=
  List.Lex (· < ·) a.data b.data

instance : DecidableRel strLt := fun a b =>
  inferInstanceAs (Decidable (List.Lex (· < ·) a.data b.data))

theorem strLt_trichotomy (a b : String) : strLt a b ∨ a = b ∨ strLt b a := by
  rcases trichotomous_of (List.Lex ((· < ·) : Char → Char → Prop)) a.data b.data
    with h | h | h
  · exact Or.inl h
  · exact Or.inr (Or.inl (String.ext h))
  · exact Or.inr (Or.inr h)

theorem strLt_trans {a b c : String} (h1 : strLt a b) (h2 : strLt b c) :
    strLt a c :=
  trans_of (List.Lex ((· < ·) : Char → Char → Prop)) h1 h2

/-- The final `ORDER BY country, year` of the clean-table query. -/
def cleanLe (a b : CleanRecord) : Prop :=
  strLt a.country b.country ∨ (a.country = b.country ∧ a.year ≤ b.year)

instance : DecidableRel cleanLe := fun a b =>
  inferInstanceAs (Decidable (strLt a.country b.country ∨ (a.country = b.country ∧ a.year ≤ b.year)))

instance : IsTotal CleanRecord cleanLe := by
  constructor
  intro a b
  rcases strLt_trichotomy a.country b.country with h | h | h
  · exact Or.inl (Or.inl h)
  · rcases le_total a.year b.year with h' | h'
    · exact Or.inl (Or.inr ⟨h, h'⟩)
    · exact Or.inr (Or.inr ⟨h.symm, h'⟩)
  · exact Or.inr (Or.inl h)

instance : IsTrans CleanRecord cleanLe := by
  constructor
  intro a b c hab hbc
  rcases hab with hab | ⟨hab, hab'⟩
  · rcases hbc with hbc | ⟨hbc, _⟩
    · exact Or.inl (strLt_trans hab hbc)
    · exact Or.inl (hbc ▸ hab)
  · rcases hbc with hbc | ⟨hbc, hbc'⟩
    · exact Or.inl (hab ▸ hbc)
    · exact Or.inr ⟨hab.trans hbc, hab'.trans hbc'⟩

/-- The `CREATE TABLE clean_infrastructure` query: filter to `year >= 2010`,
compute the derived columns per country partition, sort by `(country, year)`. -/
def clean_infrastructure (raw : List RawRecord) : List CleanRecord :=
  let t := filteredRaw raw
  ((countriesOf t).flatMap (cleanByCountry t)).insertionSort cleanLe

/-- Forget the derived columns of a clean row. -/
def toRaw (r : CleanRecord) : RawRecord where
  country := r.country
  year := r.year
  infrastructure_score := r.infrastructure_score
  transport_resilience := r.transport_resilience
  energy_resilience := r.energy_resilience
  water_resilience := r.water_resilience
  digital_resilience := r.digital_resilience

/-! ### SQL aggregates over nullable columns

`AVG`, `MIN`, `MAX` and `STDDEV` skip null inputs and return null when every
input is null (for `STDDEV`, when fewer than two inputs are non-null). -/

/-- `AVG` over a nullable column. -/
def avgOpt (xs : List (Option ℚ)) : Option ℚ :=
  let vs := xs.filterMap id
  if vs.length = 0 then none else some (vs.sum / vs.length)

/-- `MIN` over a nullable column. -/
def minOpt (xs : List (Option ℚ)) : Option ℚ :=
  (xs.filterMap id).min?

/-- `MAX` over a nullable column. -/
def maxOpt (xs : List (Option ℚ)) : Option ℚ :=
  (xs.filterMap id).max?

/-- The sample variance of a list of values: mean squared deviation from the
mean with `N − 1` denominator (the square of the sample standard deviation). -/
def sampleVar (vs : List ℚ) : ℚ :=
  (vs.map (fun x => (x - vs.sum / vs.length) ^ 2)).sum / ((vs.length : ℚ) - 1)

/-- The square of `STDDEV` over a nullable column: the sample variance of the
non-null inputs, null when fewer than two inputs are non-null. -/
def stddevSq (xs : List (Option ℚ)) : Option ℚ :=
  let vs := xs.filterMap id
  if vs.length ≤ 1 then none else some (sampleVar vs)

/-- A row of `country_summary`. -/
structure CountrySummaryRecord where
  country : String
  first_year : Option Int
  last_year : Option Int
  num_years : Nat
  avg_score : Option ℚ
  min_score : Option ℚ
  max_score : Option ℚ
  score_improvement : Option ℚ
  avg_yearly_change : Option ℚ
deriving DecidableEq, Repr

/-- The `CREATE TABLE country_summary` query: `GROUP BY country` over the
clean table, with `MIN`/`MAX` year, `COUNT(*)`, score aggregates,
`score_improvement = MAX(score) − MIN(score)` and
`avg_yearly_change = AVG(score_change)`. -/
def country_summary_of (ci : List CleanRecord) : List CountrySummaryRecord :=
  ((ci.map (·.country)).dedup).map (fun c =>
    let g := ci.filter (fun r => decide (r.country = c))
    { country := c
      first_year := (g.map (·.year)).min?
      last_year := (g.map (·.year)).max?
      num_years := g.length
      avg_score := avgOpt (g.map (·.infrastructure_score))
      min_score := minOpt (g.map (·.infrastructure_score))
      max_score := maxOpt (g.map (·.infrastructure_score))
      score_improvement :=
        sub? (maxOpt (g.map (·.infrastructure_score)))
          (minOpt (g.map (·.infrastructure_score)))
      avg_yearly_change := avgOpt (g.map (·.score_change)) })

/-- `country_summary` as produced by the transform stage. -/
def country_summary (raw : List RawRecord) : List CountrySummaryRecord :=
  country_summary_of (clean_infrastructure raw)

/-- A row of `yearly_trends`.  `score_std_dev_sq` is the square of the
`score_std_dev` column (see the header note on `STDDEV`). -/
structure YearlyTrendRecord where
  year : Int
  global_avg_score : Option ℚ
  score_std_dev_sq : Option ℚ
  min_score : Option ℚ
  max_score : Option ℚ
  num_countries : Nat
deriving DecidableEq, Repr

/-- The `CREATE TABLE yearly_trends` query: `GROUP BY year` over the clean
table with score aggregates and `COUNT(DISTINCT country)`, `ORDER BY year`. -/
def yearly_trends_of (ci : List CleanRecord) : List YearlyTrendRecord :=
  (((ci.map (·.year)).dedup).insertionSort (· ≤ ·)).map (fun y =>
    let g := ci.filter (fun r => decide (r.year = y))
    { year := y
      global_avg_score := avgOpt (g.map (·.infrastructure_score))
      score_std_dev_sq := stddevSq (g.map (·.infrastructure_score))
      min_score := minOpt (g.map (·.infrastructure_score))
      max_score := maxOpt (g.map (·.infrastructure_score))
      num_countries := ((g.map (·.country)).dedup).length })

/-- `yearly_trends` as produced by the transform stage. -/
def yearly_trends (raw : List RawRecord) : List YearlyTrendRecord :=
  yearly_trends_of (clean_infrastructure raw)

/-- A row of the `top_performers` view. -/
structure TopPerformerRecord where
  country : String
  avg_score : Option ℚ
  score_improvement : Option ℚ
  latest_score : Option ℚ
  latest_rank : Nat
deriving DecidableEq, Repr

/-- `SELECT MAX(year) FROM clean_infrastructure` (null on an empty table). -/
def maxYearOf (ci : List CleanRecord) : Option Int :=
  (ci.map (·.year)).max?

/-- `ORDER BY ... DESC` comparison on a nullable score column
(higher scores first, nulls last). -/
def optDescLe : Option ℚ → Option ℚ → Prop
  | some x, some y => y ≤ x
  | some _, none => True
  | none, some _ => False
  | none, none => True

instance : DecidableRel optDescLe := fun a b => by
  rcases a with _ | x <;> rcases b with _ | y <;>
    simp only [optDescLe] <;> infer_instance

/-- `ORDER BY ci.infrastructure_score DESC` on the joined rows. -/
def topLe (a b : TopPerformerRecord) : Prop :=
  optDescLe a.latest_score b.latest_score

instance : DecidableRel topLe := fun a b =>
  inferInstanceAs (Decidable (optDescLe a.latest_score b.latest_score))

theorem optDescLe_total (a b : Option ℚ) : optDescLe a b ∨ optDescLe b a := by
  rcases a with _ | x <;> rcases b with _ | y <;> simp only [optDescLe]
  · exact Or.inl trivial
  · exact Or.inr trivial
  · exact Or.inl trivial
  · exact le_total y x

theorem optDescLe_trans {a b c : Option ℚ}
    (h1 : optDescLe a b) (h2 : optDescLe b c) : optDescLe a c := by
  rcases a with _ | x <;> rcases b with _ | y <;> rcases c with _ | z <;>
    simp only [optDescLe] at *
  exact h2.trans h1

instance : IsTotal TopPerformerRecord topLe :=
  ⟨fun a b => optDescLe_total a.latest_score b.latest_score⟩

instance : IsTrans TopPerformerRecord topLe :=
  ⟨fun _ _ _ h1 h2 => optDescLe_trans h1 h2⟩

/-- The `CREATE VIEW top_performers` query: join `country_summary` with
`clean_infrastructure` on country, restricted to the maximum year present,
ordered by the latest score descending, `LIMIT 10`. -/
def top_performers_of (cs : List CountrySummaryRecord) (ci : List CleanRecord) :
    List TopPerformerRecord :=
  let joined := cs.flatMap (fun c =>
    (ci.filter (fun r =>
        decide (r.country = c.country) && decide (some r.year = maxYearOf ci))).map
      (fun r =>
        { country := c.country
          avg_score := c.avg_score
          score_improvement := c.score_improvement
          latest_score := r.infrastructure_score
          latest_rank := r.yearly_rank }))
  (joined.insertionSort topLe).take 10

/-- `top_performers` as produced by the analytics-view stage. -/
def top_performers (raw : List RawRecord) : List TopPerformerRecord :=
  top_performers_of (country_summary raw) (clean_infrastructure raw)

/-! ### Quality checks -/

/-- One entry of the quality report (the run timestamp of the JSON report is
wall-clock time and is not modelled). -/
structure QualityCheckResult where
  check : String
  passed : Bool
  details : String
deriving DecidableEq, Repr

/-- The persisted quality report. -/
structure QualityReport where
  checks : List QualityCheckResult
  all_passed : Bool
deriving DecidableEq, Repr

/-- The `null_values` count: rows of the clean table whose
`infrastructure_score` is null. -/
def nullCount (ci : List CleanRecord) : Nat :=
  (ci.filter (fun r => r.infrastructure_score.isNone)).length

/-- The `duplicates` count: `(country, year)` groups of the clean table
holding more than one row (`GROUP BY country, year HAVING COUNT(*) > 1`). -/
def dupGroupCount (ci : List CleanRecord) : Nat :=
  (((ci.map cleanKey).dedup).filter (fun k =>
    decide (1 < (ci.filter (fun r => decide (cleanKey r = k))).length))).length

/-- The `null_values` check entry. -/
def nullCheck (ci : List CleanRecord) : QualityCheckResult where
  check := "null_values"
  passed := nullCount ci == 0
  details := "Found " ++ toString (nullCount ci) ++ " null values"

/-- The `duplicates` check entry. -/
def dupCheck (ci : List CleanRecord) : QualityCheckResult where
  check := "duplicates"
  passed := dupGroupCount ci == 0
  details := "Found " ++ toString (dupGroupCount ci) ++ " duplicate records"

/-- `run_quality_checks`: both checks plus `all_passed`, the conjunction of
the individual `passed` flags. -/
def run_quality_checks (ci : List CleanRecord) : QualityReport :=
  let checks := [nullCheck ci, dupCheck ci]
  { checks := checks, all_passed := checks.all (·.passed) }

/-! ### Orchestrator

`run_pipeline` runs `extract`, `transform`, `load`, `create_analytics_views`
and `run_quality_checks` inside `try`/`except`/`finally`: any exception is
caught and turns the run result into failure, and `close()` (which closes the
DuckDB connection) runs on every exit path.  We model the filesystem input, the
engine's registered tables, the files written, and the connection as explicit
state; a stage that raises is an `Except.error` carrying the error and the
state at the point of failure. -/

/-- A raised DuckDB error (the only one reachable in this model: a query names
a table that was never registered, as `transform` does when `extract` found no
raw file). -/
inductive StageErr where
  | tableNotFound (table : String)
deriving DecidableEq, Repr

/-- The raw-data directory: the content of
`infrastructure_resilience_scores.csv`, or `none` when the file is absent.
(Optional `worldbank_*.csv` files are loaded into tables no later stage reads;
they are omitted.) -/
structure FileSystem where
  infraFile : Option (List RawRecord)
deriving DecidableEq, Repr

/-- The engine and output state threaded through the stages:
registered tables, names of output files written under `data/final`, the
persisted quality report, the stages entered so far, and the connection
(open flag plus how many times `close()` ran). -/
structure EngineState where
  raw_infrastructure : Option (List RawRecord)
  clean_infrastructure_tbl : Option (List CleanRecord)
  country_summary_tbl : Option (List CountrySummaryRecord)
  yearly_trends_tbl : Option (List YearlyTrendRecord)
  top_performers_view : Option (List TopPerformerRecord)
  outputFiles : List String
  qualityReport : Option QualityReport
  stagesEntered : List String
  connOpen : Bool
  closeCount : Nat
deriving DecidableEq, Repr

/-- The state right after `InfrastructureETL()` construction: connection open,
no tables, no outputs. -/
def initState : EngineState where
  raw_infrastructure := none
  clean_infrastructure_tbl := none
  country_summary_tbl := none
  yearly_trends_tbl := none
  top_performers_view := none
  outputFiles := []
  qualityReport := none
  stagesEntered := []
  connOpen := true
  closeCount := 0

/-- `extract`: if the raw CSV exists, register it as `raw_infrastructure`;
if it is absent, do nothing — the method still returns normally. -/
def extractStage (fs : FileSystem) (st : EngineState) :
    Except (StageErr × EngineState) EngineState :=
  let st := { st with stagesEntered := st.stagesEntered ++ ["extract"] }
  match fs.infraFile with
  | some rows => .ok { st with raw_infrastructure := some rows }
  | none => .ok st

/-- `transform`: build the three derived tables from `raw_infrastructure`;
raises if that table was never registered. -/
def transformStage (st : EngineState) :
    Except (StageErr × EngineState) EngineState :=
  let st := { st with stagesEntered := st.stagesEntered ++ ["transform"] }
  match st.raw_infrastructure with
  | none => .error (.tableNotFound "raw_infrastructure", st)
  | some rows =>
    let ci := clean_infrastructure rows
    .ok { st with
      clean_infrastructure_tbl := some ci
      country_summary_tbl := some (country_summary_of ci)
      yearly_trends_tbl := some (yearly_trends_of ci) }

/-- `load`: export each derived table as Parquet and CSV and write the
metadata file (file contents are not modelled beyond their names). -/
def loadStage (st : EngineState) :
    Except (StageErr × EngineState) EngineState :=
  let st := { st with stagesEntered := st.stagesEntered ++ ["load"] }
  match st.clean_infrastructure_tbl, st.country_summary_tbl, st.yearly_trends_tbl with
  | some _, some _, some _ =>
    .ok { st with outputFiles := st.outputFiles ++
      ["clean_infrastructure.parquet", "clean_infrastructure.csv",
       "country_summary.parquet", "country_summary.csv",
       "yearly_trends.parquet", "yearly_trends.csv",
       "pipeline_metadata.json"] }
  | none, _, _ => .error (.tableNotFound "clean_infrastructure", st)
  | _, none, _ => .error (.tableNotFound "country_summary", st)
  | _, _, none => .error (.tableNotFound "yearly_trends", st)

/-- `create_analytics_views`: create the `top_performers` view and export it
as CSV. -/
def viewsStage (st : EngineState) :
    Except (StageErr × EngineState) EngineState :=
  let st := { st with stagesEntered := st.stagesEntered ++ ["views"] }
  match st.country_summary_tbl, st.clean_infrastructure_tbl with
  | some cs, some ci =>
    .ok { st with
      top_performers_view := some (top_performers_of cs ci)
      outputFiles := st.outputFiles ++ ["top_performers.csv"] }
  | none, _ => .error (.tableNotFound "country_summary", st)
  | _, none => .error (.tableNotFound "clean_infrastructure", st)

/-- `run_quality_checks` as a stage: computes and persists the report and
returns normally whether or not the checks passed (its boolean return value is
ignored by `run_pipeline`). -/
def qualityStage (st : EngineState) :
    Except (StageErr × EngineState) EngineState :=
  let st := { st with stagesEntered := st.stagesEntered ++ ["quality"] }
  match st.clean_infrastructure_tbl with
  | some ci =>
    .ok { st with
      qualityReport := some (run_quality_checks ci)
      outputFiles := st.outputFiles ++ ["quality_report.json"] }
  | none => .error (.tableNotFound "clean_infrastructure", st)

/-- The `try` block of `run_pipeline`: the five stages in order; the first
raised error aborts the rest. -/
def runStages (fs : FileSystem) (st : EngineState) :
    Except (StageErr × EngineState) EngineState := do
  let st ← extractStage fs st
  let st ← transformStage st
  let st ← loadStage st
  let st ← viewsStage st
  qualityStage st

/-- `close()`: release the DuckDB connection (the `finally` block). -/
def closeConn (st : EngineState) : EngineState :=
  { st with connOpen := false, closeCount := st.closeCount + 1 }

/-- `run_pipeline`: run the stages, return `true` on success and `false` when
a stage raised, closing the connection on both paths. -/
def run_pipeline (fs : FileSystem) (st : EngineState) : Bool × EngineState :=
  match runStages fs st with
  | .ok st' => (true, closeConn st')
  | .error (_, st') => (false, closeConn st')

/-! ## Theorems -/

/-! ### Helper lemmas on the transform -/

theorem toRaw_mkClean (t : List RawRecord) (r : RawRecord) (p : Option RawRecord) :
    toRaw (mkClean t r p) = r := by
  cases r
  rfl

theorem withLag_map_fst (p : Option RawRecord) (l : List RawRecord) :
    (withLag p l).map Prod.fst = l := by
  induction l generalizing p with
  | nil => rfl
  | cons a t ih => rw [withLag, List.map_cons, ih]

theorem cleanByCountry_map_toRaw (t : List RawRecord) (c : String) :
    ((cleanByCountry t c).map toRaw).Perm (partitionOf t c) := by
  rw [cleanByCountry, List.map_map]
  have hcomp : toRaw ∘ (fun p : RawRecord × Option RawRecord => mkClean t p.1 p.2)
      = Prod.fst := funext fun p => toRaw_mkClean t p.1 p.2
  rw [hcomp, withLag_map_fst]
  exact List.perm_insertionSort yearLe (partitionOf t c)

theorem sum_map_single_key {κ : Type} [DecidableEq κ]
    (l : List κ) (hl : l.Nodup) (k : κ) (hk : k ∈ l) (n : ℕ) :
    (l.map (fun c => if c = k then n else 0)).sum = n := by
  induction l with
  | nil => cases hk
  | cons c l ih =>
    rw [List.map_cons, List.sum_cons]
    rcases List.mem_cons.mp hk with heq | hk'
    · rw [if_pos heq.symm]
      have hz : (l.map (fun c' => if c' = k then n else 0)).sum = 0 := by
        apply List.sum_eq_zero
        intro x hx
        rw [List.mem_map] at hx
        obtain ⟨c', hc', rfl⟩ := hx
        refine if_neg ?_
        rintro rfl
        exact (List.nodup_cons.mp hl).1 (heq ▸ hc')
      rw [hz]
      exact Nat.add_zero n
    · have hck : c ≠ k := by
        rintro rfl
        exact (List.nodup_cons.mp hl).1 hk'
      rw [if_neg hck, Nat.zero_add]
      exact ih (List.nodup_cons.mp hl).2 hk'

theorem flatMap_partition_perm (t : List RawRecord) :
    ((countriesOf t).flatMap (partitionOf t)).Perm t := by
  rw [List.perm_iff_count]
  intro a
  rw [List.count_flatMap]
  by_cases ha : a ∈ t
  · have hmapeq : List.map (List.count a ∘ partitionOf t) (countriesOf t)
        = List.map (fun c => if c = a.country then List.count a t else 0)
            (countriesOf t) := by
      apply List.map_congr_left
      intro c _
      by_cases hc : c = a.country
      · rw [if_pos hc]
        show List.count a (partitionOf t c) = List.count a t
        exact List.count_filter (by simp [hc])
      · rw [if_neg hc]
        show List.count a (partitionOf t c) = 0
        rw [List.count_eq_zero]
        intro hmem
        rw [partitionOf, List.mem_filter, decide_eq_true_eq] at hmem
        exact hc hmem.2.symm
    rw [hmapeq,
      sum_map_single_key (countriesOf t) (List.nodup_dedup _) a.country
        (List.mem_dedup.mpr (List.mem_map_of_mem (·.country) ha)) (List.count a t)]
  · rw [List.count_eq_zero.mpr ha]
    apply List.sum_eq_zero
    intro x hx
    rw [List.mem_map] at hx
    obtain ⟨c, _, rfl⟩ := hx
    show List.count a (partitionOf t c) = 0
    rw [List.count_eq_zero]
    intro hmem
    exact ha (List.mem_of_mem_filter hmem)

theorem flatMap_perm_congr {α β : Type} (l : List α) (f g : α → List β)
    (h : ∀ a ∈ l, (f a).Perm (g a)) : (l.flatMap f).Perm (l.flatMap g) := by
  induction l with
  | nil => exact List.Perm.refl _
  | cons a l ih =>
    rw [List.flatMap_cons, List.flatMap_cons]
    exact (h a (List.mem_cons_self a l)).append
      (ih fun a' ha' => h a' (List.mem_cons_of_mem a ha'))

/-- The underlying raw rows of the clean table are a permutation of the
`year >= 2010` rows of the input. -/
theorem clean_map_toRaw_perm (raw : List RawRecord) :
    ((clean_infrastructure raw).map toRaw).Perm (filteredRaw raw) := by
  simp only [clean_infrastructure]
  refine ((List.perm_insertionSort cleanLe _).map toRaw).trans ?_
  rw [List.map_flatMap]
  refine (flatMap_perm_congr _ _ _
    (fun c _ => cleanByCountry_map_toRaw (filteredRaw raw) c)).trans ?_
  exact flatMap_partition_perm (filteredRaw raw)

/-- C3: the clean table holds exactly the input rows with `year >= 2010`
(as a multiset, with the derived columns forgotten), and a raw row appears in
it iff it is an input row with `year >= 2010` — rows before 2010 are dropped.
This holds for every input, in particular for inputs with no duplicate
`(country, year)` pairs. -/
theorem clean_rows_exactly_filtered (raw : List RawRecord) :
    ((clean_infrastructure raw).map toRaw).Perm
      (raw.filter (fun r => decide (2010 ≤ r.year))) ∧
    (∀ r : RawRecord,
      r ∈ (clean_infrastructure raw).map toRaw ↔ (r ∈ raw ∧ 2010 ≤ r.year)) := by
  refine ⟨clean_map_toRaw_perm raw, fun r => ?_⟩
  rw [(clean_map_toRaw_perm raw).mem_iff]
  rw [filteredRaw, List.mem_filter, decide_eq_true_eq]

/-- C6: the `duplicates` quality check passes iff the count of `(country,
year)` groups with more than one record is zero; with exactly one duplicated
pair it reports `passed = false` and a details string containing the count
`"1"`; `all_passed` is the conjunction of the individual checks, so it is
`true` whenever there are zero duplicate groups and zero null core scores. -/
theorem duplicates_check_spec (ci : List CleanRecord) :
    ((dupCheck ci).passed = true ↔ dupGroupCount ci = 0) ∧
    (dupGroupCount ci = 1 →
      (dupCheck ci).passed = false ∧
      ∃ p q, (dupCheck ci).details = p ++ "1" ++ q) ∧
    ((run_quality_checks ci).all_passed
      = ((nullCheck ci).passed && (dupCheck ci).passed)) ∧
    (dupGroupCount ci = 0 → nullCount ci = 0 →
      (run_quality_checks ci).all_passed = true) := by
  refine ⟨?_, ?_, ?_, ?_⟩
  · simp [dupCheck]
  · intro h
    refine ⟨by simp [dupCheck, h], "Found ", " duplicate records", ?_⟩
    simp only [dupCheck, h]
    decide
  · simp [run_quality_checks]
  · intro h h'
    simp [run_quality_checks, nullCheck, dupCheck, h, h']

/-- The clean relation of the C6 witness: exactly one injected duplicate
`(country, year)` pair (`("A", 2010)` appears twice) and no null scores. -/
def ciC6 : List CleanRecord :=
  [⟨"A", 2010, some 90, 1, 2, 3, 4, 5/2, none, 1⟩,
   ⟨"A", 2010, some 90, 1, 2, 3, 4, 5/2, none, 1⟩,
   ⟨"B", 2010, some 80, 1, 2, 3, 4, 5/2, none, 3⟩]

/-- A clean relation with zero duplicates and zero null scores. -/
def ciC6ok : List CleanRecord :=
  [⟨"A", 2010, some 90, 1, 2, 3, 4, 5/2, none, 1⟩,
   ⟨"B", 2010, some 80, 1, 2, 3, 4, 5/2, none, 2⟩]

theorem duplicates_check_spec_witness :
    dupGroupCount ciC6 = 1 ∧
    ((dupCheck ciC6).passed = false ∧
      ∃ p q, (dupCheck ciC6).details = p ++ "1" ++ q) ∧
    (run_quality_checks ciC6ok).all_passed = true :=
  ⟨by decide,
   (duplicates_check_spec ciC6).2.1 (by decide),
   (duplicates_check_spec ciC6ok).2.2.2 (by decide) (by decide)⟩

/-- C7: quality-check failure is non-fatal.  On a structurally successful run
(the raw file is present, so every stage returns normally) `run_pipeline`
reports overall success and persists the quality report even when the checks
did not all pass. -/
theorem quality_failure_nonfatal (rows : List RawRecord)
    (_h : (run_quality_checks (clean_infrastructure rows)).all_passed = false) :
    (run_pipeline ⟨some rows⟩ initState).1 = true ∧
    (run_pipeline ⟨some rows⟩ initState).2.qualityReport
      = some (run_quality_checks (clean_infrastructure rows)) ∧
    "quality_report.json" ∈ (run_pipeline ⟨some rows⟩ initState).2.outputFiles := by
  refine ⟨rfl, rfl, ?_⟩
  show "quality_report.json" ∈
    ["clean_infrastructure.parquet", "clean_infrastructure.csv",
     "country_summary.parquet", "country_summary.csv",
     "yearly_trends.parquet", "yearly_trends.csv",
     "pipeline_metadata.json", "top_performers.csv", "quality_report.json"]
  decide

/-- The raw relation of the C7 witness: a duplicated `("A", 2010)` row makes
the duplicates check fail. -/
def rawC7 : List RawRecord :=
  [⟨"A", 2010, some 90, 1, 2, 3, 4⟩,
   ⟨"A", 2010, some 90, 1, 2, 3, 4⟩,
   ⟨"B", 2010, some 80, 1, 2, 3, 4⟩]

theorem quality_failure_nonfatal_witness :
    (run_quality_checks (clean_infrastructure rawC7)).all_passed = false ∧
    (run_pipeline ⟨some rawC7⟩ initState).1 = true ∧
    (run_pipeline ⟨some rawC7⟩ initState).2.qualityReport
      = some (run_quality_checks (clean_infrastructure rawC7)) :=
  ⟨by decide,
   (quality_failure_nonfatal rawC7 (by decide)).1,
   (quality_failure_nonfatal rawC7 (by decide)).2.1⟩

/-- C8: with the required raw file absent, extract still returns normally,
the failure surfaces as a missing-relation error raised by the transform
stage, the run reports overall failure, no output file is written, and the
load, analytics-view and quality-check stages never run. -/
theorem missing_input_fails_at_transform :
    (∃ st, extractStage ⟨none⟩ initState = .ok st) ∧
    (∃ st, runStages ⟨none⟩ initState
      = .error (.tableNotFound "raw_infrastructure", st)) ∧
    (run_pipeline ⟨none⟩ initState).1 = false ∧
    (run_pipeline ⟨none⟩ initState).2.outputFiles = [] ∧
    (run_pipeline ⟨none⟩ initState).2.stagesEntered = ["extract", "transform"] ∧
    (run_pipeline ⟨none⟩ initState).2.qualityReport = none :=
  ⟨⟨_, rfl⟩, ⟨_, rfl⟩, rfl, rfl, rfl, rfl⟩

/-- C9: on every exit path of `run_pipeline` — the raw file present (success,
including runs whose quality checks fail) or absent (the transform stage
raises) — the connection acquired at construction is closed exactly once and
is not open afterwards. -/
theorem connection_released_once (fs : FileSystem) :
    (run_pipeline fs initState).2.closeCount = 1 ∧
    (run_pipeline fs initState).2.connOpen = false := by
  obtain ⟨_ | rows⟩ := fs
  · exact ⟨rfl, rfl⟩
  · exact ⟨rfl, rfl⟩

/-- C10: a country all of whose clean rows carry a null `score_change` — in
particular one with a single year in the data — gets a null
`avg_yearly_change` in the country summary: `AVG` over only-null inputs is
null, not zero. -/
theorem avg_yearly_change_null (ci : List CleanRecord) (cs : CountrySummaryRecord)
    (hcs : cs ∈ country_summary_of ci)
    (h : ∀ r ∈ ci, r.country = cs.country → r.score_change = none) :
    cs.avg_yearly_change = none := by
  rw [country_summary_of, List.mem_map] at hcs
  obtain ⟨c, _, rfl⟩ := hcs
  simp only [avgOpt]
  have hnil : ((ci.filter (fun r => decide (r.country = c))).map
      (fun r => r.score_change)).filterMap id = [] := by
    rw [List.filterMap_eq_nil_iff]
    intro a ha
    rw [List.mem_map] at ha
    obtain ⟨r, hr, rfl⟩ := ha
    rw [List.mem_filter, decide_eq_true_eq] at hr
    exact h r hr.1 hr.2
  simp [hnil]

/-! ### Helper lemmas for the window functions -/

theorem mkClean_country (t : List RawRecord) (r : RawRecord) (p : Option RawRecord) :
    (mkClean t r p).country = r.country := rfl

theorem mkClean_year (t : List RawRecord) (r : RawRecord) (p : Option RawRecord) :
    (mkClean t r p).year = r.year := rfl

theorem mkClean_score (t : List RawRecord) (r : RawRecord) (p : Option RawRecord) :
    (mkClean t r p).infrastructure_score = r.infrastructure_score := rfl

theorem mkClean_rank (t : List RawRecord) (r : RawRecord) (p : Option RawRecord) :
    (mkClean t r p).yearly_rank = rankOf t r := rfl

theorem mkClean_score_change_none (t : List RawRecord) (r : RawRecord) :
    (mkClean t r none).score_change = none := rfl

theorem mkClean_score_change_some (t : List RawRecord) (r s : RawRecord) :
    (mkClean t r (some s)).score_change
      = sub? r.infrastructure_score s.infrastructure_score := rfl

/-- Membership in the clean table, unfolded to its generating partition. -/
theorem mem_clean_iff (raw : List RawRecord) (r : CleanRecord) :
    r ∈ clean_infrastructure raw ↔
      ∃ c ∈ countriesOf (filteredRaw raw),
        ∃ sp ∈ withLag none (sortByYear (partitionOf (filteredRaw raw) c)),
          mkClean (filteredRaw raw) sp.1 sp.2 = r := by
  simp only [clean_infrastructure]
  rw [(List.perm_insertionSort cleanLe _).mem_iff, List.mem_flatMap]
  simp only [cleanByCountry, List.mem_map]

theorem mem_fst_of_mem_withLag {p : Option RawRecord} {l : List RawRecord}
    {sp : RawRecord × Option RawRecord} (h : sp ∈ withLag p l) : sp.1 ∈ l := by
  have h' := List.mem_map_of_mem Prod.fst h
  rwa [withLag_map_fst] at h'

theorem mem_partition_iff (t : List RawRecord) (c : String) (u : RawRecord) :
    u ∈ sortByYear (partitionOf t c) ↔ u ∈ t ∧ u.country = c := by
  rw [sortByYear, (List.perm_insertionSort yearLe _).mem_iff, partitionOf,
    List.mem_filter, decide_eq_true_eq]

theorem mem_filteredRaw_iff (raw : List RawRecord) (u : RawRecord) :
    u ∈ filteredRaw raw ↔ u ∈ raw ∧ 2010 ≤ u.year := by
  rw [filteredRaw, List.mem_filter, decide_eq_true_eq]

/-- With no duplicate `(country, year)` keys, the ordered partition of a
country is strictly increasing in year. -/
theorem partition_years_strict (raw : List RawRecord)
    (hnd : ((filteredRaw raw).map keyOf).Nodup) (c : String) :
    (sortByYear (partitionOf (filteredRaw raw) c)).Pairwise
      (fun a b => a.year < b.year) := by
  set t := filteredRaw raw with ht
  have hsort : (sortByYear (partitionOf t c)).Pairwise yearLe :=
    List.sorted_insertionSort yearLe (partitionOf t c)
  have hkeys : ((partitionOf t c).map keyOf).Nodup :=
    hnd.sublist ((List.filter_sublist _).map keyOf)
  have hkeys' : ((sortByYear (partitionOf t c)).map keyOf).Nodup :=
    (((List.perm_insertionSort yearLe _).map keyOf).nodup_iff).mpr hkeys
  have hpairkeys : (sortByYear (partitionOf t c)).Pairwise
      (fun a b => keyOf a ≠ keyOf b) := List.pairwise_map.mp hkeys'
  refine (hsort.and hpairkeys).imp_of_mem ?_
  intro a b ha hb hab
  rcases lt_or_eq_of_le hab.1 with h | h
  · exact h
  · exfalso
    apply hab.2
    have hac : a.country = c := ((mem_partition_iff t c a).mp ha).2
    have hbc : b.country = c := ((mem_partition_iff t c b).mp hb).2
    rw [keyOf, keyOf, hac, hbc, h]

theorem withLag_eq_zip (p : Option RawRecord) (l : List RawRecord) :
    withLag p l = l.zip (p :: l.map some) := by
  induction l generalizing p with
  | nil => rfl
  | cons a t ih => rw [withLag, ih, List.map_cons, List.zip_cons_cons]

/-- The `LAG` characterisation on a strictly year-sorted partition: the first
row's predecessor is null, and every other row's predecessor is the partition
row with the greatest year below its own. -/
theorem withLag_none_spec (l : List RawRecord)
    (hl : l.Pairwise (fun a b => a.year < b.year)) :
    ∀ sp ∈ withLag none l,
      (sp.2 = none ↔ ∀ u ∈ l, ¬ u.year < sp.1.year) ∧
      (∀ s, sp.2 = some s →
        s ∈ l ∧ s.year < sp.1.year ∧
        ∀ u ∈ l, u.year < sp.1.year → u.year ≤ s.year) := by
  have hstrict := List.pairwise_iff_getElem.mp hl
  intro sp hsp
  rw [withLag_eq_zip, List.mem_iff_getElem] at hsp
  obtain ⟨i, hi, hget⟩ := hsp
  have hlen : (l.zip ((none : Option RawRecord) :: l.map some)).length = l.length := by
    rw [List.length_zip, List.length_cons, List.length_map]
    exact Nat.min_eq_left (Nat.le_succ _)
  have hi' : i < l.length := by rw [hlen] at hi; exact hi
  have hi'' : i < ((none : Option RawRecord) :: l.map some).length := by
    rw [List.length_cons, List.length_map]
    exact Nat.lt_succ_of_lt hi'
  have hpair : sp = (l[i], ((none : Option RawRecord) :: l.map some)[i]) := by
    rw [← hget, List.getElem_zip]
  subst hpair
  match i, hi', hi'' with
  | 0, hi', hi'' =>
    constructor
    · refine iff_of_true rfl ?_
      intro u hu
      rw [List.mem_iff_getElem] at hu
      obtain ⟨j, hj, rfl⟩ := hu
      match j, hj with
      | 0, hj => exact lt_irrefl _
      | j + 1, hj => exact lt_asymm (hstrict 0 (j + 1) hi' hj (Nat.succ_pos j))
    · intro s hs
      exact absurd hs (by simp)
  | j + 1, hi', hi'' =>
    have hj : j < l.length := Nat.lt_of_succ_lt hi'
    have hsnd : ((none : Option RawRecord) :: l.map some)[j + 1] = some l[j] := by
      rw [List.getElem_cons_succ]
      exact List.getElem_map _
    constructor
    · refine iff_of_false (by rw [hsnd]; simp) ?_
      intro hall
      exact hall l[j] (List.getElem_mem hj) (hstrict j (j + 1) hj hi' (Nat.lt_succ_self j))
    · intro s hs
      rw [hsnd] at hs
      obtain rfl : l[j] = s := Option.some_injective _ hs
      refine ⟨List.getElem_mem hj, hstrict j (j + 1) hj hi' (Nat.lt_succ_self j), ?_⟩
      intro u hu hult
      rw [List.mem_iff_getElem] at hu
      obtain ⟨k, hk, rfl⟩ := hu
      rcases Nat.lt_or_ge k (j + 1) with hkj | hkj
      · rcases Nat.lt_or_ge k j with hkj' | hkj'
        · exact le_of_lt (hstrict k j hk hj hkj')
        · have : k = j := Nat.le_antisymm (Nat.lt_succ_iff.mp hkj) hkj'
          subst this
          exact le_refl _
      · exfalso
        rcases Nat.eq_or_lt_of_le hkj with heq | hlt
        · subst heq
          exact lt_irrefl _ hult
        · exact lt_asymm hult (hstrict (j + 1) k hi' hk hlt)

theorem toRaw_mem_filtered {raw : List RawRecord} {r : CleanRecord}
    (hr : r ∈ clean_infrastructure raw) : toRaw r ∈ filteredRaw raw :=
  (clean_map_toRaw_perm raw).mem_iff.mp (List.mem_map_of_mem toRaw hr)

theorem sorted_partition_keys_nodup (raw : List RawRecord)
    (hnd : ((filteredRaw raw).map keyOf).Nodup) (c : String) :
    ((sortByYear (partitionOf (filteredRaw raw) c)).map keyOf).Nodup :=
  (((List.perm_insertionSort yearLe _).map keyOf).nodup_iff).mpr
    (hnd.sublist ((List.filter_sublist _).map keyOf))

/-- C1: for every clean row, `score_change` is null exactly when the row's
country has no earlier (post-filter) year in the data, and otherwise equals
the row's score minus the score at the country's immediately preceding year
present — the year-`u` row where `u` has the greatest year below the row's
among the same country's `year >= 2010` rows (hypotheses: no duplicate
`(country, year)` keys, no null scores). -/
theorem score_change_spec (raw : List RawRecord)
    (hnd : ((filteredRaw raw).map keyOf).Nodup)
    (hwf : ∀ u ∈ raw, u.infrastructure_score ≠ none)
    (r : CleanRecord) (hr : r ∈ clean_infrastructure raw) :
    (r.score_change = none ↔
      ∀ u ∈ raw, u.country = r.country → 2010 ≤ u.year → ¬ u.year < r.year) ∧
    (∀ u ∈ raw, u.country = r.country → 2010 ≤ u.year → u.year < r.year →
      (∀ v ∈ raw, v.country = r.country → 2010 ≤ v.year → v.year < r.year →
        v.year ≤ u.year) →
      ∀ a b, r.infrastructure_score = some a → u.infrastructure_score = some b →
        r.score_change = some (a - b)) := by
  rw [mem_clean_iff] at hr
  obtain ⟨c, _, sp, hsp, rfl⟩ := hr
  set t := filteredRaw raw with ht
  set l := sortByYear (partitionOf t c) with hldef
  have hl : l.Pairwise (fun a b => a.year < b.year) := partition_years_strict raw hnd c
  have hspec := withLag_none_spec l hl sp hsp
  have hs1 : sp.1 ∈ l := mem_fst_of_mem_withLag hsp
  have hs1c : sp.1.country = c := ((mem_partition_iff t c sp.1).mp hs1).2
  have hmeml : ∀ u : RawRecord, u ∈ l ↔ (u ∈ raw ∧ 2010 ≤ u.year ∧ u.country = c) := by
    intro u
    rw [mem_partition_iff, mem_filteredRaw_iff, and_assoc]
  have hwl : ∀ u ∈ l, u.infrastructure_score ≠ none :=
    fun u hu => hwf u ((hmeml u).mp hu).1
  rcases h2 : sp.2 with _ | s'
  · rw [h2] at hspec
    have hnoprev : ∀ u ∈ l, ¬ u.year < sp.1.year := hspec.1.mp rfl
    constructor
    · rw [mkClean_score_change_none]
      refine iff_of_true rfl ?_
      intro u hu huc h2010
      rw [mkClean_country] at huc
      rw [mkClean_year]
      exact hnoprev u ((hmeml u).mpr ⟨hu, h2010, huc.trans hs1c⟩)
    · intro u hu huc h2010 hult _ a b _ _
      exfalso
      rw [mkClean_country] at huc
      rw [mkClean_year] at hult
      exact hnoprev u ((hmeml u).mpr ⟨hu, h2010, huc.trans hs1c⟩) hult
  · rw [h2] at hspec
    obtain ⟨hs'l, hs'lt, hs'max⟩ := hspec.2 s' rfl
    have hs'c : s'.country = c := ((hmeml s').mp hs'l).2.2
    constructor
    · rw [mkClean_score_change_some]
      obtain ⟨a, ha⟩ := Option.ne_none_iff_exists'.mp (hwl sp.1 hs1)
      obtain ⟨b, hb⟩ := Option.ne_none_iff_exists'.mp (hwl s' hs'l)
      rw [ha, hb]
      refine iff_of_false (by simp [sub?]) ?_
      intro hall
      refine hall s' ((hmeml s').mp hs'l).1 ?_ ((hmeml s').mp hs'l).2.1 ?_
      · rw [mkClean_country, hs'c, hs1c]
      · rw [mkClean_year]
        exact hs'lt
    · intro u hu huc h2010 hult hmax a b hra hub
      rw [mkClean_country] at huc
      rw [mkClean_year] at hult
      have hul : u ∈ l := (hmeml u).mpr ⟨hu, h2010, huc.trans hs1c⟩
      have hmaxl : ∀ v ∈ l, v.year < sp.1.year → v.year ≤ u.year := by
        intro v hv hvlt
        obtain ⟨hvraw, hv2010, hvc⟩ := (hmeml v).mp hv
        refine hmax v hvraw ?_ hv2010 ?_
        · rw [mkClean_country, hvc, hs1c]
        · rw [mkClean_year]
          exact hvlt
      have hyear : u.year = s'.year :=
        le_antisymm (hs'max u hul hult) (hmaxl s' hs'l hs'lt)
      have hus' : u = s' :=
        List.inj_on_of_nodup_map (sorted_partition_keys_nodup raw hnd c)
          hul hs'l (by rw [keyOf, keyOf, hyear, huc.trans hs1c, hs'c])
      rw [mkClean_score_change_some, mkClean_score] at *
      rw [hra, ← hus', hub]
      rfl

/-- The rank of a clean row, as the count of same-year rows of the filtered
input that strictly precede it in descending score order. -/
theorem rank_formula (raw : List RawRecord)
    (r : CleanRecord) (hr : r ∈ clean_infrastructure raw) :
    r.yearly_rank = 1 + ((filteredRaw raw).filter (fun u =>
      decide (u.year = r.year)
        && descPrecedes u.infrastructure_score r.infrastructure_score)).length := by
  rw [mem_clean_iff] at hr
  obtain ⟨c, _, sp, hsp, rfl⟩ := hr
  rw [mkClean_year, mkClean_score, mkClean_rank, rankOf,
    List.countP_eq_length_filter]

/-- Filtering on year and score position is blind to the derived columns:
the clean-level and raw-level counts agree. -/
theorem length_filter_clean_eq (raw : List RawRecord) (y : Int) (sc : Option ℚ) :
    ((clean_infrastructure raw).filter (fun s =>
      decide (s.year = y) && descPrecedes s.infrastructure_score sc)).length
    = ((filteredRaw raw).filter (fun u =>
      decide (u.year = y) && descPrecedes u.infrastructure_score sc)).length := by
  have hperm := (clean_map_toRaw_perm raw).filter (fun u =>
    decide (u.year = y) && descPrecedes u.infrastructure_score sc)
  rw [List.filter_map] at hperm
  have hlen := hperm.length_eq
  rwa [List.length_map] at hlen

/-- C2: `yearly_rank` is standard competition ranking per year on descending
score: it is one plus the number of same-year rows with strictly higher score
(so a tie at rank 2 is followed by rank 4, not dense ranking), equal scores in
a year share a rank, and rank 1 is held exactly by the rows whose score is
maximal in their year (hypothesis: no null scores). -/
theorem yearly_rank_spec (raw : List RawRecord)
    (hwf : ∀ u ∈ raw, u.infrastructure_score ≠ none)
    (r : CleanRecord) (hr : r ∈ clean_infrastructure raw) :
    (r.yearly_rank = 1 + ((clean_infrastructure raw).filter (fun s =>
        decide (s.year = r.year)
          && descPrecedes s.infrastructure_score r.infrastructure_score)).length) ∧
    (∀ s ∈ clean_infrastructure raw, s.year = r.year →
      s.infrastructure_score = r.infrastructure_score →
      s.yearly_rank = r.yearly_rank) ∧
    (r.yearly_rank = 1 ↔
      ∀ s ∈ clean_infrastructure raw, s.year = r.year →
        ∀ a b, r.infrastructure_score = some a → s.infrastructure_score = some b →
          b ≤ a) := by
  refine ⟨?_, ?_, ?_⟩
  · rw [rank_formula raw r hr, length_filter_clean_eq]
  · intro s hs hy hsc
    rw [rank_formula raw s hs, rank_formula raw r hr, hy, hsc]
  · rw [rank_formula raw r hr]
    have hr' : toRaw r ∈ raw :=
      ((mem_filteredRaw_iff raw (toRaw r)).mp (toRaw_mem_filtered hr)).1
    constructor
    · intro hone s hs hy a b hra hsb
      have hzero : ((filteredRaw raw).filter (fun u =>
          decide (u.year = r.year)
            && descPrecedes u.infrastructure_score r.infrastructure_score)).length = 0 := by
        omega
      rw [List.length_eq_zero, List.filter_eq_nil_iff] at hzero
      have hst : toRaw s ∈ filteredRaw raw := toRaw_mem_filtered hs
      have hfalse := hzero (toRaw s) hst
      rw [Bool.and_eq_true, decide_eq_true_eq] at hfalse
      push_neg at hfalse
      have hd := hfalse (show (toRaw s).year = r.year from hy)
      have hne : descPrecedes (some b) (some a) ≠ true := by
        have hsb' : (toRaw s).infrastructure_score = some b := hsb
        rw [← hsb', ← hra]
        exact hd
      refine not_lt.mp (fun hlt => hne ?_)
      rw [descPrecedes]
      exact decide_eq_true hlt
    · intro hall
      have hzero : ((filteredRaw raw).filter (fun u =>
          decide (u.year = r.year)
            && descPrecedes u.infrastructure_score r.infrastructure_score)).length = 0 := by
        rw [List.length_eq_zero, List.filter_eq_nil_iff]
        intro u hu
        rw [Bool.and_eq_true, decide_eq_true_eq]
        rintro ⟨huy, hud⟩
        have huraw : u ∈ raw := ((mem_filteredRaw_iff raw u).mp hu).1
        obtain ⟨b, hb⟩ := Option.ne_none_iff_exists'.mp (hwf u huraw)
        obtain ⟨a, ha⟩ := Option.ne_none_iff_exists'.mp (hwf (toRaw r) hr')
        have ha' : r.infrastructure_score = some a := ha
        have hsclean : ∃ s ∈ clean_infrastructure raw, toRaw s = u := by
          have hmem : u ∈ (clean_infrastructure raw).map toRaw :=
            (clean_map_toRaw_perm raw).mem_iff.mpr hu
          rwa [List.mem_map] at hmem
        obtain ⟨s, hs, hsu⟩ := hsclean
        have hle := hall s hs
          (by rw [show s.year = u.year from congrArg (·.year) hsu, huy]) a b ha'
          (by rw [show s.infrastructure_score = u.infrastructure_score from
            congrArg (·.infrastructure_score) hsu]; exact hb)
        rw [hb, ha'] at hud
        rw [descPrecedes, decide_eq_true_eq] at hud
        exact absurd hud (not_lt.mpr hle)
      omega

/-- The raw input of the C1 witness: country `A` in 2009 (dropped), 2010 and
2011, country `B` in 2010. -/
def rawC1 : List RawRecord :=
  [⟨"A", 2009, some 10, 1, 2, 3, 4⟩,
   ⟨"A", 2010, some 80, 1, 2, 3, 4⟩,
   ⟨"A", 2011, some 85, 1, 2, 3, 4⟩,
   ⟨"B", 2010, some 70, 1, 2, 3, 4⟩]

/-- The clean row of country `A`, year 2011 (position 1 of the sorted clean
table). -/
def rC1 : CleanRecord :=
  (clean_infrastructure rawC1).get ⟨1, by decide⟩

theorem score_change_spec_witness :
    rC1 ∈ clean_infrastructure rawC1 ∧
    rC1.score_change = some ((85 : ℚ) - 80) :=
  have hm : rC1 ∈ clean_infrastructure rawC1 :=
    List.get_mem (clean_infrastructure rawC1) 1 (by decide)
  ⟨hm,
   (score_change_spec rawC1 (by decide) (by decide) rC1 hm).2
     ⟨"A", 2010, some 80, 1, 2, 3, 4⟩ (by decide) (by decide) (by decide)
     (by decide) (by decide) 85 80 (by decide) (by decide)⟩

/-- The raw input of the C2 witness: a two-way tie at the top of year 2010. -/
def rawC2 : List RawRecord :=
  [⟨"A", 2010, some 90, 1, 2, 3, 4⟩,
   ⟨"B", 2010, some 90, 1, 2, 3, 4⟩,
   ⟨"C", 2010, some 80, 1, 2, 3, 4⟩]

/-- The clean rows of countries `A`, `B`, `C` for the C2 witness. -/
def rC2a : CleanRecord := (clean_infrastructure rawC2).get ⟨0, by decide⟩

def rC2b : CleanRecord := (clean_infrastructure rawC2).get ⟨1, by decide⟩

def rC2c : CleanRecord := (clean_infrastructure rawC2).get ⟨2, by decide⟩

theorem yearly_rank_spec_witness :
    rC2a ∈ clean_infrastructure rawC2 ∧
    rC2b.yearly_rank = rC2a.yearly_rank ∧
    rC2c.yearly_rank = 1 + ((clean_infrastructure rawC2).filter (fun s =>
      decide (s.year = rC2c.year)
        && descPrecedes s.infrastructure_score rC2c.infrastructure_score)).length ∧
    (80 : ℚ) ≤ 90 :=
  have hma : rC2a ∈ clean_infrastructure rawC2 :=
    List.get_mem (clean_infrastructure rawC2) 0 (by decide)
  have hmb : rC2b ∈ clean_infrastructure rawC2 :=
    List.get_mem (clean_infrastructure rawC2) 1 (by decide)
  have hmc : rC2c ∈ clean_infrastructure rawC2 :=
    List.get_mem (clean_infrastructure rawC2) 2 (by decide)
  ⟨hma,
   (yearly_rank_spec rawC2 (by decide) rC2a hma).2.1 rC2b hmb (by decide) (by decide),
   (yearly_rank_spec rawC2 (by decide) rC2c hmc).1,
   (yearly_rank_spec rawC2 (by decide) rC2a hma).2.2.mp (by decide) rC2c hmc
     (by decide) 90 80 (by decide) (by decide)⟩

/-! ### Helper lemmas for the yearly-trends aggregation -/

theorem sampleVar_perm {vs ws : List ℚ} (h : vs.Perm ws) :
    sampleVar vs = sampleVar ws := by
  simp only [sampleVar]
  rw [h.sum_eq, h.length_eq,
    (h.map (fun x => (x - ws.sum / ws.length) ^ 2)).sum_eq]

theorem cleanYear_map_toRaw_perm (raw : List RawRecord) (y : Int) :
    (((clean_infrastructure raw).filter (fun r => decide (r.year = y))).map toRaw).Perm
      (rawYear raw y) := by
  have h := (clean_map_toRaw_perm raw).filter (fun u => decide (u.year = y))
  rw [List.filter_map] at h
  exact h

theorem filterMap_id_length_of_ne_none {xs : List (Option ℚ)}
    (h : ∀ x ∈ xs, x ≠ none) : (xs.filterMap id).length = xs.length := by
  induction xs with
  | nil => rfl
  | cons a t ih =>
    cases a with
    | none => exact absurd rfl (h none (List.mem_cons_self _ _))
    | some v =>
      rw [List.filterMap_cons]
      show (v :: t.filterMap id).length = t.length + 1
      rw [List.length_cons, ih (fun x hx => h x (List.mem_cons_of_mem _ hx))]

theorem rawYear_countries_nodup (raw : List RawRecord)
    (hnd : ((filteredRaw raw).map keyOf).Nodup) (y : Int) :
    ((rawYear raw y).map (·.country)).Nodup := by
  have hsub : (rawYear raw y).Sublist (filteredRaw raw) := List.filter_sublist _
  have hkeys : ((rawYear raw y).map keyOf).Nodup :=
    hnd.sublist (hsub.map keyOf)
  have hpair : (rawYear raw y).Pairwise (fun a b => keyOf a ≠ keyOf b) :=
    List.pairwise_map.mp hkeys
  refine List.pairwise_map.mpr (hpair.imp_of_mem ?_)
  intro a b ha hb hne hcountry
  apply hne
  have hay : a.year = y := by
    have h := (List.mem_filter.mp ha).2
    rwa [decide_eq_true_eq] at h
  have hby : b.year = y := by
    have h := (List.mem_filter.mp hb).2
    rwa [decide_eq_true_eq] at h
  rw [keyOf, keyOf, hcountry, hay, hby]

/-- C4: each `yearly_trends` row counts the distinct countries present in its
year, and its standard deviation is the sample one: null exactly when the year
has a single country, and otherwise the `N − 1`-denominator variance of the
year's scores (stated via its square `score_std_dev_sq`; hypotheses: no
duplicate `(country, year)` keys and no null scores in the input). -/
theorem yearly_trends_spec (raw : List RawRecord)
    (hnd : ((filteredRaw raw).map keyOf).Nodup)
    (hwf : ∀ u ∈ raw, u.infrastructure_score ≠ none)
    (tr : YearlyTrendRecord) (htr : tr ∈ yearly_trends raw) :
    tr.num_countries = ((rawYear raw tr.year).map (·.country)).toFinset.card ∧
    (tr.score_std_dev_sq = none ↔ tr.num_countries = 1) ∧
    (2 ≤ tr.num_countries →
      tr.score_std_dev_sq
        = some (sampleVar ((rawYear raw tr.year).filterMap (·.infrastructure_score)))) := by
  rw [yearly_trends, yearly_trends_of, List.mem_map] at htr
  obtain ⟨y, hy, rfl⟩ := htr
  dsimp only
  set ci := clean_infrastructure raw with hci
  set g := ci.filter (fun r => decide (r.year = y)) with hg
  have hgperm : (g.map toRaw).Perm (rawYear raw y) := cleanYear_map_toRaw_perm raw y
  have hcountry_perm : (g.map (·.country)).Perm ((rawYear raw y).map (·.country)) := by
    have h := hgperm.map (·.country)
    rwa [List.map_map] at h
  have hscore_perm :
      (g.map (·.infrastructure_score)).Perm ((rawYear raw y).map (·.infrastructure_score)) := by
    have h := hgperm.map (·.infrastructure_score)
    rwa [List.map_map] at h
  have hnum : ((g.map (·.country)).dedup).length
      = ((rawYear raw y).map (·.country)).toFinset.card := by
    rw [List.card_toFinset]
    exact (hcountry_perm.dedup).length_eq
  have hgnodup : (g.map (·.country)).Nodup :=
    hcountry_perm.nodup_iff.mpr (rawYear_countries_nodup raw hnd y)
  have hnumlen : ((g.map (·.country)).dedup).length = g.length := by
    rw [List.dedup_eq_self.mpr hgnodup, List.length_map]
  have hvslen : ((g.map (·.infrastructure_score)).filterMap id).length = g.length := by
    rw [filterMap_id_length_of_ne_none, List.length_map]
    intro x hx
    rw [List.mem_map] at hx
    obtain ⟨r, hr, rfl⟩ := hx
    have hmem : toRaw r ∈ raw :=
      List.mem_of_mem_filter (toRaw_mem_filtered (List.mem_of_mem_filter hr))
    exact hwf (toRaw r) hmem
  have hgne : 0 < g.length := by
    have hy' := (List.perm_insertionSort (· ≤ ·) ((ci.map (·.year)).dedup)).mem_iff.mp hy
    rw [List.mem_dedup, List.mem_map] at hy'
    obtain ⟨r, hr, hry⟩ := hy'
    have : r ∈ g := by
      rw [hg, List.mem_filter, decide_eq_true_eq]
      exact ⟨hr, hry⟩
    exact List.length_pos.mpr (List.ne_nil_of_mem this)
  have hiff : stddevSq (g.map (·.infrastructure_score)) = none ↔ g.length ≤ 1 := by
    simp only [stddevSq]
    by_cases hle : ((g.map (·.infrastructure_score)).filterMap id).length ≤ 1
    · rw [if_pos hle]
      rw [hvslen] at hle
      exact iff_of_true rfl hle
    · rw [if_neg hle]
      rw [hvslen] at hle
      exact iff_of_false (by simp) hle
  refine ⟨hnum, ?_, ?_⟩
  · rw [hnumlen, hiff]
    omega
  · intro h2
    rw [hnumlen] at h2
    simp only [stddevSq]
    rw [if_neg (by rw [hvslen]; omega)]
    have hvperm : ((g.map (·.infrastructure_score)).filterMap id).Perm
        ((rawYear raw y).filterMap (·.infrastructure_score)) := by
      have h := hscore_perm.filterMap id
      have heq : List.filterMap id
          (List.map (fun x => x.infrastructure_score) (rawYear raw y))
          = (rawYear raw y).filterMap (fun x => x.infrastructure_score) :=
        List.filterMap_map _ _ _
      rwa [heq] at h
    rw [sampleVar_perm hvperm]

/-- The raw input of the C3 witness: one pre-2010 row among three. -/
def rawC3 : List RawRecord :=
  [⟨"A", 2005, some 10, 1, 2, 3, 4⟩,
   ⟨"A", 2012, some 80, 1, 2, 3, 4⟩,
   ⟨"B", 2012, some 70, 1, 2, 3, 4⟩]

theorem clean_rows_exactly_filtered_witness :
    ((clean_infrastructure rawC3).map toRaw).Perm
      (rawC3.filter (fun r => decide (2010 ≤ r.year))) :=
  (clean_rows_exactly_filtered rawC3).1

/-- The raw input of the C4 witness: a single country and year. -/
def rawC4 : List RawRecord :=
  [⟨"A", 2010, some 80, 1, 2, 3, 4⟩]

/-- The single trend row of the C4 witness. -/
def trC4 : YearlyTrendRecord :=
  (yearly_trends rawC4).get ⟨0, by decide⟩

theorem yearly_trends_spec_witness :
    trC4 ∈ yearly_trends rawC4 ∧
    trC4.num_countries = ((rawYear rawC4 trC4.year).map (·.country)).toFinset.card ∧
    (trC4.score_std_dev_sq = none ↔ trC4.num_countries = 1) :=
  have hm : trC4 ∈ yearly_trends rawC4 :=
    List.get_mem (yearly_trends rawC4) 0 (by decide)
  ⟨hm,
   (yearly_trends_spec rawC4 (by decide) (by decide) trC4 hm).1,
   (yearly_trends_spec rawC4 (by decide) (by decide) trC4 hm).2.1⟩

/-- C5: the `top_performers` view has at most 10 rows, is sorted by
`latest_score` descending, and every row arises from the join of a country
summary row with a clean row of the single maximum year present in the clean
table (all stated for arbitrary instances of the two joined relations, hence
in particular for the tables the pipeline derives). -/
theorem top_performers_spec (cs : List CountrySummaryRecord) (ci : List CleanRecord) :
    (top_performers_of cs ci).length ≤ 10 ∧
    List.Pairwise topLe (top_performers_of cs ci) ∧
    (∀ p ∈ top_performers_of cs ci,
      ∃ r ∈ ci,
        p.country = r.country ∧ p.latest_score = r.infrastructure_score ∧
        p.latest_rank = r.yearly_rank ∧
        some r.year = maxYearOf ci ∧
        ∀ s ∈ ci, s.year ≤ r.year) ∧
    (∀ p ∈ top_performers_of cs ci,
      ∃ c ∈ cs,
        p.country = c.country ∧ p.avg_score = c.avg_score ∧
        p.score_improvement = c.score_improvement) := by
  have hmem : ∀ p ∈ top_performers_of cs ci,
      ∃ c ∈ cs, ∃ r ∈ ci,
        r.country = c.country ∧ some r.year = maxYearOf ci ∧
        p = { country := c.country, avg_score := c.avg_score,
              score_improvement := c.score_improvement,
              latest_score := r.infrastructure_score,
              latest_rank := r.yearly_rank } := by
    intro p hp
    rw [top_performers_of] at hp
    have hp' := (List.perm_insertionSort topLe _).mem_iff.mp
      (List.mem_of_mem_take hp)
    rw [List.mem_flatMap] at hp'
    obtain ⟨c, hc, hp''⟩ := hp'
    rw [List.mem_map] at hp''
    obtain ⟨r, hr, rfl⟩ := hp''
    rw [List.mem_filter, Bool.and_eq_true, decide_eq_true_eq, decide_eq_true_eq] at hr
    exact ⟨c, hc, r, hr.1, hr.2.1, hr.2.2, rfl⟩
  refine ⟨?_, ?_, ?_, ?_⟩
  · rw [top_performers_of]
    exact (List.length_take_le 10 _)
  · rw [top_performers_of]
    exact (List.sorted_insertionSort topLe _).sublist (List.take_sublist 10 _)
  · intro p hp
    obtain ⟨c, _, r, hr, hcountry, hmax, rfl⟩ := hmem p hp
    refine ⟨r, hr, hcountry.symm, rfl, rfl, hmax, ?_⟩
    intro s hs
    have hiff := @List.max?_eq_some_iff Int r.year _ _
      ⟨fun h h' => le_antisymm h h'⟩ (fun a => le_refl a)
      (fun a b => max_choice a b) (fun _ _ _ => max_le_iff)
      (ci.map (·.year))
    have hmax' : (ci.map (·.year)).max? = some r.year := by
      rw [maxYearOf] at hmax
      exact hmax.symm
    exact (hiff.mp hmax').2 s.year (List.mem_map_of_mem (·.year) hs)
  · intro p hp
    obtain ⟨c, hc, r, _, _, _, rfl⟩ := hmem p hp
    exact ⟨c, hc, rfl, rfl, rfl⟩

/-- The raw input of the C5 witness: two countries over two years. -/
def rawC5 : List RawRecord :=
  [⟨"A", 2010, some 80, 1, 2, 3, 4⟩,
   ⟨"A", 2011, some 85, 1, 2, 3, 4⟩,
   ⟨"B", 2010, some 70, 1, 2, 3, 4⟩,
   ⟨"B", 2011, some 75, 1, 2, 3, 4⟩]

theorem top_performers_spec_witness :
    (top_performers rawC5).length ≤ 10 ∧
    List.Pairwise topLe (top_performers rawC5) :=
  ⟨(top_performers_spec (country_summary rawC5) (clean_infrastructure rawC5)).1,
   (top_performers_spec (country_summary rawC5) (clean_infrastructure rawC5)).2.1⟩


/-- The single-year raw input of the C10 witness. -/
def ciC10 : List CleanRecord :=
  [⟨"A", 2010, some 80, 1, 2, 3, 4, 5/2, none, 1⟩]

/-- The summary row the C10 witness is about. -/
def csC10 : CountrySummaryRecord :=
  (country_summary_of ciC10).getD 0 ⟨"", none, none, 0, none, none, none, none, none⟩

theorem avg_yearly_change_null_witness :
    csC10 ∈ country_summary_of ciC10 ∧ csC10.avg_yearly_change = none :=
  have hm : csC10 ∈ country_summary_of ciC10 := by
    rw [show country_summary_of ciC10 = [csC10] from rfl]
    exact List.mem_singleton_self csC10
  ⟨hm, avg_yearly_change_null ciC10 csC10 hm (by decide)⟩

end ETL
